import Mathlib

/-!
Shallow embedding of the GIN-SUNA/inventory-app Flask application
(src/app.py, src/reset_pass.py) and proofs about its stock-ledger and
authentication behaviour.

Conventions of the embedding:
* SQL REAL columns are modelled as `Rat` (exact arithmetic at spec level).
* Each table is a Lean list of row structures; insertion appends.
* A Flask handler becomes a function from its (already routed) inputs and
  the database state to an `Outcome`: either a committed state with a
  redirect (`ok`), a caught exception that rolled the session back and
  flashed an error before redirecting (`errFlash`), or an exception that
  escaped the handler body (`unhandled` - Flask then answers 400/500 with
  no flash and no redirect).
* Timestamp columns (`updated_at`, `ts`) and the display-only ORDER BY /
  LIMIT clauses of the two read-only list endpoints are not modelled; the
  `purchased_at` column is kept because POST /purchase writes it from
  form input.
-/

namespace Inventory

/-- Row of the `users` table (columns of src/app.py plus the
`is_active` / `email_verified` columns added by
src/upgrade_users_add_columns.py, with their defaults 1 and 0). -/
structure UserRow where
  id : Nat
  email : String
  name : String
  passwordHash : String
  role : String
  isActive : Bool
  emailVerified : Bool
deriving DecidableEq, Repr

/-- Row of the `items` table. -/
structure ItemRow where
  id : Nat
  name : String
  unit : String
  minQty : Rat
  supplierId : Option Nat
deriving DecidableEq, Repr

/-- Row of the `suppliers` table. -/
structure SupplierRow where
  id : Nat
  name : String
deriving DecidableEq, Repr

/-- Row of the `stock_levels` table (one row per item id; `updated_at`
not modelled). -/
structure StockRow where
  itemId : Nat
  currentQty : Rat
deriving DecidableEq, Repr

/-- Row of the `transactions` table (`ts` not modelled). -/
structure TxRow where
  txType : String
  itemId : Nat
  qty : Rat
  note : Option String
  user : String
deriving DecidableEq, Repr

/-- Row of the `purchases` table. `purchasedAt` is an abstract clock
value: COALESCE(:dt, CURRENT_TIMESTAMP). -/
structure PurchaseRow where
  purchasedAt : Nat
  itemId : Nat
  supplierId : Option Nat
  qty : Rat
  unitPrice : Rat
  note : Option String
deriving DecidableEq, Repr

/-- The whole relational state. -/
structure DB where
  users : List UserRow
  items : List ItemRow
  suppliers : List SupplierRow
  stockLevels : List StockRow
  transactions : List TxRow
  purchases : List PurchaseRow
deriving DecidableEq, Repr

def emptyDB : DB := ⟨[], [], [], [], [], []⟩

/-! ### stock_levels primitives

`slGet` is `COALESCE(current_qty, 0)` for an item id; `slAdd` is the
`DO UPDATE SET current_qty = current_qty + :d` arm; `slSet` is the plain
`UPDATE ... SET current_qty = :q WHERE item_id = :i`; `slUpsert` is the
full `INSERT ... ON CONFLICT(item_id) DO UPDATE` statement, which inserts
`insVal` when no row exists and otherwise adds `addVal`. -/

def slAny : List StockRow → Nat → Bool
  | [], _ => false
  | r :: tl, i => if r.itemId = i then true else slAny tl i

def slGet : List StockRow → Nat → Rat
  | [], _ => 0
  | r :: tl, i => if r.itemId = i then r.currentQty else slGet tl i

def slAdd : List StockRow → Nat → Rat → List StockRow
  | [], _, _ => []
  | r :: tl, i, v =>
    (if r.itemId = i then { r with currentQty := r.currentQty + v } else r) :: slAdd tl i v

def slSet : List StockRow → Nat → Rat → List StockRow
  | [], _, _ => []
  | r :: tl, i, v =>
    (if r.itemId = i then { r with currentQty := v } else r) :: slSet tl i v

def slUpsert (sl : List StockRow) (i : Nat) (insVal addVal : Rat) : List StockRow :=
  if slAny sl i then slAdd sl i addVal else sl ++ [⟨i, insVal⟩]

/-- `stock_levels.current_qty` for an item, 0 when no row exists
(the LEFT JOIN / COALESCE view the app takes of a missing row). -/
def stockOf (db : DB) (i : Nat) : Rat := slGet db.stockLevels i

def upsertStock (db : DB) (i : Nat) (insVal addVal : Rat) : DB :=
  { db with stockLevels := slUpsert db.stockLevels i insVal addVal }

def setStock (db : DB) (i : Nat) (v : Rat) : DB :=
  { db with stockLevels := slSet db.stockLevels i v }

/-! ### Lemmas about the stock primitives -/

theorem slGet_nil (i : Nat) : slGet [] i = 0 := rfl

theorem slGet_eq_zero_of_not_any {sl : List StockRow} {i : Nat}
    (h : slAny sl i = false) : slGet sl i = 0 := by
  induction sl with
  | nil => rfl
  | cons r tl ih =>
    by_cases hr : r.itemId = i
    · simp [slAny, hr] at h
    · simp only [slAny, hr, if_false] at h
      simp only [slGet, hr, if_false]
      exact ih h

theorem slGet_slAdd_self {sl : List StockRow} {i : Nat} (v : Rat)
    (h : slAny sl i = true) : slGet (slAdd sl i v) i = slGet sl i + v := by
  induction sl with
  | nil => simp [slAny] at h
  | cons r tl ih =>
    by_cases hr : r.itemId = i
    · simp [slGet, slAdd, hr]
    · simp only [slAny, hr, if_false] at h
      simp only [slGet, slAdd, hr, if_false]
      exact ih h

theorem slGet_slAdd_other {sl : List StockRow} {i j : Nat} (v : Rat)
    (h : j ≠ i) : slGet (slAdd sl i v) j = slGet sl j := by
  induction sl with
  | nil => rfl
  | cons r tl ih =>
    by_cases hr : r.itemId = i
    · have hij : i ≠ j := Ne.symm h
      simp [slGet, slAdd, hr, hij, ih]
    · by_cases hj : r.itemId = j
      · simp [slGet, slAdd, hr, hj, h]
      · simp [slGet, slAdd, hr, hj, ih]

theorem slGet_append_self {sl : List StockRow} {i : Nat} (v : Rat)
    (h : slAny sl i = false) : slGet (sl ++ [⟨i, v⟩]) i = v := by
  induction sl with
  | nil => simp [slGet]
  | cons r tl ih =>
    by_cases hr : r.itemId = i
    · simp [slAny, hr] at h
    · simp only [slAny, hr, if_false] at h
      simp only [List.cons_append, slGet, hr, if_false]
      exact ih h

theorem slGet_append_other {sl : List StockRow} {i j : Nat} (v : Rat)
    (h : j ≠ i) : slGet (sl ++ [⟨i, v⟩]) j = slGet sl j := by
  induction sl with
  | nil =>
    have : i ≠ j := by omega
    simp [slGet, this]
  | cons r tl ih =>
    by_cases hj : r.itemId = j
    · simp [slGet, hj]
    · simp only [List.cons_append, slGet, hj, if_false]
      exact ih

theorem slGet_slSet_self {sl : List StockRow} {i : Nat} (v : Rat)
    (h : slAny sl i = true) : slGet (slSet sl i v) i = v := by
  induction sl with
  | nil => simp [slAny] at h
  | cons r tl ih =>
    by_cases hr : r.itemId = i
    · simp [slGet, slSet, hr]
    · simp only [slAny, hr, if_false] at h
      simp only [slGet, slSet, hr, if_false]
      exact ih h

theorem slGet_slSet_other {sl : List StockRow} {i j : Nat} (v : Rat)
    (h : j ≠ i) : slGet (slSet sl i v) j = slGet sl j := by
  induction sl with
  | nil => rfl
  | cons r tl ih =>
    by_cases hr : r.itemId = i
    · have hij : i ≠ j := Ne.symm h
      simp [slGet, slSet, hr, hij, ih]
    · by_cases hj : r.itemId = j
      · simp [slGet, slSet, hr, hj, h]
      · simp [slGet, slSet, hr, hj, ih]

theorem slAny_slAdd (sl : List StockRow) (i j : Nat) (v : Rat) :
    slAny (slAdd sl i v) j = slAny sl j := by
  induction sl with
  | nil => rfl
  | cons r tl ih =>
    by_cases hr : r.itemId = i
    · simp only [slAny, slAdd, hr, if_true]
      by_cases hj : r.itemId = j <;> simp [hj, hr ▸ hj, ih]
    · simp only [slAny, slAdd, hr, if_false]
      by_cases hj : r.itemId = j <;> simp [hj, ih]

theorem slAny_slUpsert_self (sl : List StockRow) (i : Nat) (a b : Rat) :
    slAny (slUpsert sl i a b) i = true := by
  unfold slUpsert
  by_cases h : slAny sl i
  · rw [if_pos h, slAny_slAdd]
    exact h
  · rw [if_neg h]
    induction sl with
    | nil => simp [slAny]
    | cons r tl ih =>
      by_cases hr : r.itemId = i
      · simp [slAny, hr] at h
      · simp only [slAny, hr, if_false] at h
        simp only [List.cons_append, slAny, hr, if_false]
        exact ih h

/-- Net effect of the ON CONFLICT upsert when insert value and add value
agree (the /bump and /purchase statements, and the IN/OUT arm of /tx):
it adds `v` to the COALESCEd stock. -/
theorem slGet_slUpsert_eq (sl : List StockRow) (i : Nat) (v : Rat) :
    slGet (slUpsert sl i v v) i = slGet sl i + v := by
  unfold slUpsert
  by_cases h : slAny sl i
  · rw [if_pos h]
    exact slGet_slAdd_self v h
  · rw [if_neg h, slGet_append_self v (by simpa using h),
      slGet_eq_zero_of_not_any (by simpa using h)]
    ring

theorem slGet_slUpsert_other (sl : List StockRow) (i j : Nat) (a b : Rat)
    (h : j ≠ i) : slGet (slUpsert sl i a b) j = slGet sl j := by
  unfold slUpsert
  by_cases hAny : slAny sl i
  · rw [if_pos hAny]
    exact slGet_slAdd_other b h
  · rw [if_neg hAny]
    exact slGet_append_other a h

/-! ### Handler outcomes and form input

A handler run ends in one of three ways:
* `ok db'` — the session committed `db'` and the handler redirected
  (possibly after a success flash);
* `errFlash db'` — an exception was raised inside the handler's
  `try` block, `s.rollback()` ran (so `db'` is the state before the
  handler's statements), an error flash was recorded and the handler
  redirected to a safe page;
* `unhandled db'` — an exception escaped the handler body (Flask then
  answers 400/500 itself: no flash, no redirect, `db'` untouched).

Form fields: `request.form["x"]` on a missing key raises a
BadRequestKeyError that escapes the handler; `int(...)` / `float(...)`
on a non-numeric string raise ValueError, which also escapes because the
parsing in /bump, /tx, /purchase and /items happens before the handler's
`try` block. `FormInt.missing` / `.malformed` model those two inputs. -/

inductive Outcome where
  | ok : DB → Outcome
  | errFlash : DB → Outcome
  | unhandled : DB → Outcome
deriving DecidableEq, Repr

/-- The database state after the response, whatever the outcome. -/
def Outcome.db : Outcome → DB
  | .ok d => d
  | .errFlash d => d
  | .unhandled d => d

def Outcome.isUnhandled : Outcome → Bool
  | .unhandled _ => true
  | _ => false

/-- Whether the handler took its success path (commit + success flash /
plain redirect). -/
def accepted : Outcome → Bool
  | .ok _ => true
  | _ => false

inductive FormInt where
  | missing
  | malformed
  | num : Nat → FormInt
deriving DecidableEq, Repr

inductive FormNum where
  | missing
  | malformed
  | num : Rat → FormNum
deriving DecidableEq, Repr

inductive FormStr where
  | missing
  | str : String → FormStr
deriving DecidableEq, Repr

/-- `request.form.get(key, default)` for a string field. -/
def FormStr.getD : FormStr → String → String
  | .missing, d => d
  | .str s, _ => s

/-! ### POST /bump (src/app.py lines 247-264) -/

/-- The /bump body after `int(...)` / `float(...)` succeeded: a single
upsert statement adding `delta`, then commit. None of its statements can
violate a constraint, so the `try` always reaches `s.commit()`. -/
def bumpCore (i : Nat) (delta : Rat) (db : DB) : Outcome :=
  .ok (upsertStock db i delta delta)

/-- POST /bump including the form parsing that precedes the `try` block:
a missing key or non-numeric value raises before any statement runs. -/
def bumpForm (itemId : FormInt) (delta : FormNum) (db : DB) : Outcome :=
  match itemId, delta with
  | .num i, .num d => bumpCore i d db
  | _, _ => .unhandled db

/-! ### POST /tx (src/app.py lines 293-325)

`addTxRun` takes a `faults` oracle: `faults.getD k false = true` makes
the k-th SQL statement of the handler raise (modelling any database
error; the rollback/commit structure of the source is what makes the
outcome all-or-nothing). The transactions INSERT also raises, fault or
not, when the CHECK (type IN ('IN','OUT','ADJ')) constraint is violated.
`addTx` is the fault-free run. -/

def txDelta (t : String) (q : Rat) : Rat :=
  if t = "IN" then q else if t = "OUT" then -q else 0

/-- The committed effect of a successful /tx run: the transactions row,
then the upsert (insert value `qty` for ADJ else `delta`, conflict add
`0` for ADJ else `delta`), then for ADJ the absolute UPDATE. -/
def txCommit (i : Nat) (t : String) (q : Rat) (note : Option String)
    (user : String) (db : DB) : DB :=
  let db1 : DB := { db with transactions := db.transactions ++ [⟨t, i, q, note, user⟩] }
  let db2 := upsertStock db1 i (if t = "ADJ" then q else txDelta t q)
    (if t = "ADJ" then 0 else txDelta t q)
  if t = "ADJ" then setStock db2 i q else db2

def addTxRun (i : Nat) (t : String) (q : Rat) (note : Option String)
    (user : String) (faults : List Bool) (db : DB) : Outcome :=
  if faults.getD 0 false ∨ ¬(t = "IN" ∨ t = "OUT" ∨ t = "ADJ") then .errFlash db
  else if faults.getD 1 false then .errFlash db
  else if t = "ADJ" ∧ faults.getD 2 false then .errFlash db
  else .ok (txCommit i t q note user db)

def addTx (i : Nat) (t : String) (q : Rat) (note : Option String)
    (user : String) (db : DB) : Outcome :=
  addTxRun i t q note user [] db

/-- POST /tx including the form parsing that precedes the `try` block. -/
def addTxForm (itemId : FormInt) (txType : FormStr) (qty : FormNum)
    (note : Option String) (user : String) (db : DB) : Outcome :=
  match itemId, txType, qty with
  | .num i, .str t, .num q => addTx i t q note user db
  | _, _, _ => .unhandled db

/-! ### POST /purchase (src/app.py lines 266-291) -/

/-- The committed effect of a successful /purchase: one purchases row
(`purchased_at` = COALESCE(:dt, CURRENT_TIMESTAMP)), then the stock
upsert adding `qty`. -/
def purchaseCommit (i : Nat) (sid : Option Nat) (q up : Rat)
    (dt : Option Nat) (note : Option String) (now : Nat) (db : DB) : DB :=
  let db1 : DB := { db with purchases := db.purchases ++ [⟨dt.getD now, i, sid, q, up, note⟩] }
  upsertStock db1 i q q

def purchaseRun (i : Nat) (sid : Option Nat) (q up : Rat) (dt : Option Nat)
    (note : Option String) (now : Nat) (faults : List Bool) (db : DB) : Outcome :=
  if faults.getD 0 false then .errFlash db
  else if faults.getD 1 false then .errFlash db
  else .ok (purchaseCommit i sid q up dt note now db)

def purchase (i : Nat) (sid : Option Nat) (q up : Rat) (dt : Option Nat)
    (note : Option String) (now : Nat) (db : DB) : Outcome :=
  purchaseRun i sid q up dt note now [] db

/-- POST /purchase including the form parsing that precedes the `try`
block (`p_item_id`, `p_qty`, `p_unit_price` are required fields). -/
def purchaseForm (itemId : FormInt) (qty unitPrice : FormNum)
    (sid : Option Nat) (dt : Option Nat) (note : Option String)
    (now : Nat) (db : DB) : Outcome :=
  match itemId, qty, unitPrice with
  | .num i, .num q, .num up => purchase i sid q up dt note now db
  | _, _, _ => .unhandled db

/-! ### GET /purchases (src/app.py lines 340-353) -/

/-- One row of the /purchases listing; `amount` is the SELECT's computed
column `p.qty * p.unit_price`. -/
structure PurchaseReportRow where
  purchasedAt : Nat
  item : String
  supplier : String
  qty : Rat
  unitPrice : Rat
  amount : Rat
  note : Option String
deriving DecidableEq, Repr

def supplierNameOf (db : DB) (sid : Option Nat) : String :=
  match sid.bind (fun s => db.suppliers.find? (fun r => r.id == s)) with
  | some r => r.name
  | none => ""

/-- The /purchases query: purchases JOIN items (an inner join, so a
purchase whose item id matches no items row is dropped) LEFT JOIN
suppliers, with `amount = qty * unit_price`. The ORDER BY / LIMIT 200
display clauses are not modelled. -/
def purchasesReport (db : DB) : List PurchaseReportRow :=
  db.purchases.filterMap (fun p =>
    (db.items.find? (fun it => it.id == p.itemId)).map (fun it =>
      ⟨p.purchasedAt, it.name, supplierNameOf db p.supplierId,
        p.qty, p.unitPrice, p.qty * p.unitPrice, p.note⟩))

/-! ### POST /register (src/app.py lines 163-188) -/

/-- Model of werkzeug's `generate_password_hash` as an injective
tagging; the app only ever stores the result and compares it with
`check_password_hash`. -/
def generate_password_hash (p : String) : String :=
  "pbkdf2-sha256$" ++ p

/-- Python's `str.strip()`: drop leading and trailing whitespace
(structural recursion over the character list, so it evaluates in the
kernel). -/
def stripStr (s : String) : String :=
  ⟨((s.data.dropWhile Char.isWhitespace).reverse.dropWhile Char.isWhitespace).reverse⟩

/-- Python's `str.lower()` on the ASCII range. -/
def lowerStr (s : String) : String :=
  ⟨s.data.map Char.toLower⟩

def nextUserId (db : DB) : Nat :=
  db.users.foldl (fun m u => max m u.id) 0 + 1

/-- POST /register: closed as soon as any user row exists; otherwise
validates the three fields and inserts with role 'owner' (the
`is_active` / `email_verified` columns take their defaults 1 and 0).
With an empty users table the UNIQUE(email) constraint cannot fire, so
the INSERT's `try` succeeds. -/
def register_post (name email password : String) (db : DB) : Outcome :=
  if db.users.length > 0 then .errFlash db
  else
    let n := stripStr name
    let e := lowerStr (stripStr email)
    if n = "" ∨ e = "" ∨ password = "" then .errFlash db
    else .ok { db with
      users := db.users ++
        [⟨nextUserId db, e, n, generate_password_hash password, "owner", true, false⟩] }

/-! ### POST /items (src/app.py lines 222-245) -/

def nextItemId (db : DB) : Nat :=
  db.items.foldl (fun m it => max m it.id) 0 + 1

/-- POST /items after parsing: empty name is flashed; a duplicate name
violates UNIQUE(items.name), is caught and flashed; otherwise the item
row and (via INSERT OR IGNORE ... SELECT id FROM items WHERE name=:n) a
zero stock row are inserted and committed. -/
def addItemCore (name unit : String) (minQty : Rat) (sid : Option Nat)
    (db : DB) : Outcome :=
  let n := stripStr name
  if n = "" then .errFlash db
  else if db.items.any (fun it => it.name == n) then .errFlash db
  else
    let newId := nextItemId db
    let db1 : DB := { db with items := db.items ++ [⟨newId, n, stripStr unit, minQty, sid⟩] }
    let db2 : DB :=
      if slAny db1.stockLevels newId then db1
      else { db1 with stockLevels := db1.stockLevels ++ [⟨newId, 0⟩] }
    .ok db2

/-- POST /items including parsing: `min_qty` is read with
`float(request.form.get("min_qty", 0) or 0)`, so a missing field parses
as 0 but a non-numeric one raises ValueError before the `try` block. -/
def addItemForm (name unit : FormStr) (minQty : FormNum) (sid : Option Nat)
    (db : DB) : Outcome :=
  match minQty with
  | .malformed => .unhandled db
  | .missing => addItemCore (name.getD "") (unit.getD "個") 0 sid db
  | .num m => addItemCore (name.getD "") (unit.getD "個") m sid db

/-! ### Password reset and email verification (src/reset_pass.py)

An itsdangerous token is a signed payload with a signing timestamp.
`loads(token, max_age=m)` succeeds exactly when the signature is intact
and the token's age does not exceed `m` seconds (SignatureExpired /
BadSignature are both mapped to `None` by `load_token`). `validSig`
models whether the signature check passes; the clock is an explicit
`now` in seconds. The tokens are stateless: no table stores them, so
nothing revokes or consumes one. -/

structure Token where
  email : String
  issuedAt : Nat
  validSig : Bool
deriving DecidableEq, Repr

/-- src/reset_pass.py lines 16-20. -/
def load_token (tok : Token) (maxAge : Nat) (now : Nat) : Option String :=
  if tok.validSig ∧ now - tok.issuedAt ≤ maxAge then some tok.email else none

/-- POST /forgot (lines 60-72): looks up an active user by the lowered
email and, when found, builds a token and mails it. No database row is
written either way; the handler's value is the token it issued (if
any) and the unchanged database. -/
def forgot_post (email : String) (now : Nat) (db : DB) : Option Token × DB :=
  let e := lowerStr (stripStr email)
  match db.users.find? (fun u => u.email == e && u.isActive) with
  | none => (none, db)
  | some _ => (some ⟨e, now, true⟩, db)

/-- GET /reset (lines 74-83): `true` means the reset form is rendered
for this token; `false` means flash + redirect to /forgot. The window is
`max_age=60*60`. -/
def reset_form (tok : Token) (now : Nat) : Bool :=
  (load_token tok (60 * 60) now).isSome

/-- POST /reset (lines 85-111): validates the token against the
1-hour window, requires a non-empty, confirmed password, finds the
active user carried in the token, and overwrites that user's
password hash (also setting email_verified). Nothing marks the token
as used. -/
def reset_submit (tok : Token) (password confirm : String) (now : Nat)
    (db : DB) : Outcome :=
  match load_token tok (60 * 60) now with
  | none => .errFlash db
  | some email =>
    if password = "" ∨ password ≠ confirm then .errFlash db
    else
      match db.users.find? (fun u => u.email == email && u.isActive) with
      | none => .errFlash db
      | some _ =>
        .ok { db with
          users := db.users.map (fun u =>
            if u.email == email && u.isActive then
              { u with passwordHash := generate_password_hash password,
                       emailVerified := true }
            else u) }

/-- GET /verify-email (lines 113-129): window `max_age=60*60*24`; the
user lookup here does not require `is_active`. -/
def verify_email (tok : Token) (now : Nat) (db : DB) : Outcome :=
  match load_token tok (60 * 60 * 24) now with
  | none => .errFlash db
  | some email =>
    match db.users.find? (fun u => u.email == email) with
    | none => .errFlash db
    | some _ =>
      .ok { db with
        users := db.users.map (fun u =>
          if u.email == email then { u with emailVerified := true } else u) }

/-! ### Operation traces and the ledger invariant (spec section 3)

The quantity-affecting POST handlers, with already-parsed input and no
injected faults, seen as transition steps on the database. `ledgerReplay`
is the spec's "sum of all applicable ledger effects": replaying, per
item, the signed IN/OUT deltas, the absolute values set by ADJ rows, and
the purchase quantities, in submission order. A /bump contributes no
ledger row. -/

inductive Op where
  | tx : Nat → String → Rat → Op
  | buy : Nat → Rat → Rat → Op
  | bumpOp : Nat → Rat → Op
deriving DecidableEq, Repr

def Op.isBump : Op → Bool
  | .bumpOp _ _ => true
  | _ => false

def applyOp (db : DB) : Op → DB
  | .tx i t q => (addTx i t q none "staff" db).db
  | .buy i q up => (purchase i none q up none none 0 db).db
  | .bumpOp i d => (bumpCore i d db).db

def applyTrace (db : DB) (ops : List Op) : DB :=
  ops.foldl applyOp db

/-- The ledger effect of one operation on item `i`'s replayed balance. -/
def replayStep (i : Nat) (acc : Rat) : Op → Rat
  | .tx j t q =>
    if j = i then
      if t = "IN" then acc + q
      else if t = "OUT" then acc - q
      else if t = "ADJ" then q
      else acc
    else acc
  | .buy j q _ => if j = i then acc + q else acc
  | .bumpOp _ _ => acc

def ledgerReplay (ops : List Op) (i : Nat) : Rat :=
  ops.foldl (replayStep i) 0

/-! ### Effect lemmas for the handlers -/

theorem stockOf_bumpCore_self (i : Nat) (d : Rat) (db : DB) :
    stockOf ((bumpCore i d db).db) i = stockOf db i + d := by
  simp only [bumpCore, Outcome.db, upsertStock, stockOf]
  exact slGet_slUpsert_eq db.stockLevels i d

theorem stockOf_bumpCore_other (i j : Nat) (d : Rat) (db : DB) (h : j ≠ i) :
    stockOf ((bumpCore i d db).db) j = stockOf db j := by
  simp only [bumpCore, Outcome.db, upsertStock, stockOf]
  exact slGet_slUpsert_other db.stockLevels i j d d h

theorem stockOf_txCommit_self (i : Nat) (t : String) (q : Rat)
    (note : Option String) (user : String) (db : DB) :
    stockOf (txCommit i t q note user db) i =
      if t = "ADJ" then q else stockOf db i + txDelta t q := by
  unfold txCommit
  by_cases ht : t = "ADJ"
  · simp only [ht, if_true]
    simp only [setStock, upsertStock, stockOf]
    exact slGet_slSet_self q (slAny_slUpsert_self _ i q 0)
  · simp only [ht, if_false]
    simp only [upsertStock, stockOf]
    exact slGet_slUpsert_eq _ i (txDelta t q)

theorem stockOf_txCommit_other (i j : Nat) (t : String) (q : Rat)
    (note : Option String) (user : String) (db : DB) (h : j ≠ i) :
    stockOf (txCommit i t q note user db) j = stockOf db j := by
  unfold txCommit
  by_cases ht : t = "ADJ"
  · simp only [ht, if_true, setStock, upsertStock, stockOf]
    rw [slGet_slSet_other q h]
    exact slGet_slUpsert_other _ i j _ _ h
  · simp only [ht, if_false, upsertStock, stockOf]
    exact slGet_slUpsert_other _ i j _ _ h

theorem addTx_eq_of_valid (i : Nat) (t : String) (q : Rat)
    (note : Option String) (user : String) (db : DB)
    (hv : t = "IN" ∨ t = "OUT" ∨ t = "ADJ") :
    addTx i t q note user db = .ok (txCommit i t q note user db) := by
  unfold addTx addTxRun
  simp [hv]

theorem addTx_eq_of_invalid (i : Nat) (t : String) (q : Rat)
    (note : Option String) (user : String) (db : DB)
    (hv : ¬(t = "IN" ∨ t = "OUT" ∨ t = "ADJ")) :
    addTx i t q note user db = .errFlash db := by
  unfold addTx addTxRun
  simp [hv]

theorem stockOf_addTx_self (i : Nat) (t : String) (q : Rat)
    (note : Option String) (user : String) (db : DB) :
    stockOf ((addTx i t q note user db).db) i =
      if t = "IN" then stockOf db i + q
      else if t = "OUT" then stockOf db i - q
      else if t = "ADJ" then q
      else stockOf db i := by
  by_cases hv : t = "IN" ∨ t = "OUT" ∨ t = "ADJ"
  · rw [addTx_eq_of_valid i t q note user db hv]
    simp only [Outcome.db]
    rw [stockOf_txCommit_self]
    rcases hv with h | h | h <;> simp [h, txDelta, sub_eq_add_neg]
  · rw [addTx_eq_of_invalid i t q note user db hv]
    push_neg at hv
    simp [Outcome.db, hv.1, hv.2.1, hv.2.2]

theorem stockOf_addTx_other (i j : Nat) (t : String) (q : Rat)
    (note : Option String) (user : String) (db : DB) (h : j ≠ i) :
    stockOf ((addTx i t q note user db).db) j = stockOf db j := by
  by_cases hv : t = "IN" ∨ t = "OUT" ∨ t = "ADJ"
  · rw [addTx_eq_of_valid i t q note user db hv]
    exact stockOf_txCommit_other i j t q note user db h
  · rw [addTx_eq_of_invalid i t q note user db hv]
    rfl

theorem purchase_eq (i : Nat) (sid : Option Nat) (q up : Rat)
    (dt : Option Nat) (note : Option String) (now : Nat) (db : DB) :
    purchase i sid q up dt note now db =
      .ok (purchaseCommit i sid q up dt note now db) := by
  rfl

theorem stockOf_purchase_self (i : Nat) (sid : Option Nat) (q up : Rat)
    (dt : Option Nat) (note : Option String) (now : Nat) (db : DB) :
    stockOf ((purchase i sid q up dt note now db).db) i = stockOf db i + q := by
  rw [purchase_eq]
  simp only [Outcome.db, purchaseCommit, upsertStock, stockOf]
  exact slGet_slUpsert_eq _ i q

theorem stockOf_purchase_other (i j : Nat) (sid : Option Nat) (q up : Rat)
    (dt : Option Nat) (note : Option String) (now : Nat) (db : DB) (h : j ≠ i) :
    stockOf ((purchase i sid q up dt note now db).db) j = stockOf db j := by
  rw [purchase_eq]
  simp only [Outcome.db, purchaseCommit, upsertStock, stockOf]
  exact slGet_slUpsert_other _ i j q q h

/-! ### Sequences of /tx submissions -/

/-- The body of one POST /tx form, minus the item id. -/
structure TxReq where
  txType : String
  qty : Rat
  note : Option String
  user : String
deriving DecidableEq, Repr

/-- Submitting a sequence of /tx forms for item `i`, in order. -/
def applyTxSeq (i : Nat) (db : DB) (seq : List TxReq) : DB :=
  seq.foldl
    (fun d r => (addTxForm (.num i) (.str r.txType) (.num r.qty) r.note r.user d).db) db

/-- Sum of the signed deltas of an IN/OUT sequence: +qty per IN, -qty
per OUT. -/
def signedSum (seq : List TxReq) : Rat :=
  seq.foldl (fun a r => if r.txType = "IN" then a + r.qty else a - r.qty) 0

theorem applyTxSeq_stock (i : Nat) :
    ∀ (seq : List TxReq) (db : DB),
      (∀ r ∈ seq, r.txType = "IN" ∨ r.txType = "OUT") →
      stockOf (applyTxSeq i db seq) i =
        seq.foldl (fun a r => if r.txType = "IN" then a + r.qty else a - r.qty)
          (stockOf db i)
  | [], _, _ => rfl
  | r :: tl, db, hv => by
    have hr := hv r (List.mem_cons_self r tl)
    have htl := fun x hx => hv x (List.mem_cons_of_mem r hx)
    have step : applyTxSeq i db (r :: tl) =
        applyTxSeq i ((addTx i r.txType r.qty r.note r.user db).db) tl := rfl
    rw [step, applyTxSeq_stock i tl _ htl, List.foldl_cons]
    congr 1
    rw [stockOf_addTx_self]
    rcases hr with h | h <;> simp [h]

/-! ### Demo fixtures used by witnesses and counterexamples -/

def demoUser : UserRow := ⟨1, "a@example.com", "Alice", "h0", "owner", true, false⟩

def demoDB : DB := { emptyDB with users := [demoUser] }

def demoToken : Token := ⟨"a@example.com", 0, true⟩

def demoItem : ItemRow := ⟨1, "widget", "個", 0, none⟩

def demoItemDB : DB := { emptyDB with items := [demoItem] }

/-! ### The claims -/

/-- C1: for every item and every sequence of IN/OUT transactions
submitted via POST /tx, starting from a stock level of 0 (no row or a
zero row), the resulting `stock_levels.current_qty` equals the sum of
the signed deltas of the sequence (+qty per IN, -qty per OUT). -/
theorem C1_in_out_sequence_sums_signed_deltas (i : Nat) (seq : List TxReq)
    (db : DB) (hv : ∀ r ∈ seq, r.txType = "IN" ∨ r.txType = "OUT")
    (h0 : stockOf db i = 0) :
    stockOf (applyTxSeq i db seq) i = signedSum seq := by
  rw [applyTxSeq_stock i seq db hv, h0, signedSum]

theorem C1_witness :
    (∀ r ∈ [TxReq.mk "IN" 3 none "u", TxReq.mk "OUT" 1 none "u"],
      r.txType = "IN" ∨ r.txType = "OUT") ∧
    stockOf emptyDB 1 = 0 ∧
    stockOf (applyTxSeq 1 emptyDB
      [TxReq.mk "IN" 3 none "u", TxReq.mk "OUT" 1 none "u"]) 1 =
      signedSum [TxReq.mk "IN" 3 none "u", TxReq.mk "OUT" 1 none "u"] :=
  ⟨by decide, by decide,
    C1_in_out_sequence_sums_signed_deltas 1 _ emptyDB (by decide) (by decide)⟩

/-- C2: an ADJ transaction submitted via POST /tx sets
`stock_levels.current_qty` to exactly the submitted qty, for every prior
state (including when no stock row exists yet). -/
theorem C2_adj_sets_absolute_value (i : Nat) (q : Rat) (note : Option String)
    (user : String) (db : DB) :
    stockOf ((addTxForm (.num i) (.str "ADJ") (.num q) note user db).db) i = q := by
  show stockOf ((addTx i "ADJ" q note user db).db) i = q
  rw [stockOf_addTx_self]
  simp

/-- C3: a successful POST /purchase increases the item's stock by
exactly `q`, appends exactly one purchases row, and GET /purchases
reports that row with amount `q * up`. -/
theorem C3_purchase_effect (i : Nat) (it : ItemRow) (sid : Option Nat)
    (q up : Rat) (dt : Option Nat) (note : Option String) (now : Nat)
    (db : DB) (hit : db.items.find? (fun r => r.id == i) = some it) :
    accepted (purchase i sid q up dt note now db) = true ∧
    (purchase i sid q up dt note now db).db.purchases =
      db.purchases ++ [⟨dt.getD now, i, sid, q, up, note⟩] ∧
    stockOf ((purchase i sid q up dt note now db).db) i = stockOf db i + q ∧
    purchasesReport ((purchase i sid q up dt note now db).db) =
      purchasesReport db ++
        [⟨dt.getD now, it.name, supplierNameOf db sid, q, up, q * up, note⟩] := by
  refine ⟨rfl, rfl, stockOf_purchase_self i sid q up dt note now db, ?_⟩
  rw [purchase_eq]
  simp only [Outcome.db, purchaseCommit, upsertStock, purchasesReport,
    supplierNameOf, List.filterMap_append]
  congr 1
  simp [hit]

theorem C3_witness :
    demoItemDB.items.find? (fun r => r.id == 1) = some demoItem ∧
    accepted (purchase 1 none 5 2 none none 0 demoItemDB) = true ∧
    (purchase 1 none 5 2 none none 0 demoItemDB).db.purchases =
      demoItemDB.purchases ++ [⟨0, 1, none, 5, 2, none⟩] ∧
    stockOf ((purchase 1 none 5 2 none none 0 demoItemDB).db) 1 =
      stockOf demoItemDB 1 + 5 ∧
    purchasesReport ((purchase 1 none 5 2 none none 0 demoItemDB).db) =
      purchasesReport demoItemDB ++
        [⟨0, demoItem.name, supplierNameOf demoItemDB none, 5, 2, 5 * 2, none⟩] :=
  ⟨by decide, C3_purchase_effect 1 demoItem none 5 2 none none 0 demoItemDB (by decide)⟩

/-! ### Password-reset helpers -/

theorem reset_submit_ok (tok : Token) (pw cf : String) (now : Nat) (db : DB)
    (hs : tok.validSig = true) (ha : now - tok.issuedAt ≤ 60 * 60)
    (hp : pw ≠ "") (hc : pw = cf)
    (hu : ∃ u ∈ db.users, u.email = tok.email ∧ u.isActive = true) :
    reset_submit tok pw cf now db =
      .ok { db with users := db.users.map (fun u =>
        if u.email == tok.email && u.isActive then
          { u with passwordHash := generate_password_hash pw,
                   emailVerified := true }
        else u) } := by
  unfold reset_submit load_token
  rw [if_pos ⟨hs, ha⟩]
  dsimp only
  rw [if_neg (by push_neg; exact ⟨hp, hc⟩)]
  obtain ⟨u, hmem, he, hact⟩ := hu
  have hfind : (db.users.find? (fun u => u.email == tok.email && u.isActive)).isSome := by
    rw [List.find?_isSome]
    exact ⟨u, hmem, by simp [he, hact]⟩
  obtain ⟨v, hv⟩ := Option.isSome_iff_exists.mp hfind
  rw [hv]

/-- After a successful reset for `tok`, a matching active user still
exists (the update keeps email and is_active). -/
theorem reset_preserves_match (tok : Token) (pw : String) (db : DB)
    (hu : ∃ u ∈ db.users, u.email = tok.email ∧ u.isActive = true) :
    ∃ u ∈ (db.users.map (fun u =>
        if u.email == tok.email && u.isActive then
          { u with passwordHash := generate_password_hash pw,
                   emailVerified := true }
        else u)), u.email = tok.email ∧ u.isActive = true := by
  obtain ⟨u, hmem, he, hact⟩ := hu
  refine ⟨_, List.mem_map_of_mem _ hmem, ?_⟩
  by_cases hcond : (u.email == tok.email && u.isActive) = true
  · simp only [hcond, if_true]
    exact ⟨he, hact⟩
  · simp [he, hact] at hcond

/-- C4 counterexample: a still-unexpired reset token is accepted a
second time with a different new password, contradicting "accepted
exactly once" — the code keeps no record of redeemed tokens. -/
theorem C4_counterexample :
    accepted (reset_submit demoToken "pw1" "pw1" 100 demoDB) = true ∧
    accepted (reset_submit demoToken "pw2" "pw2" 200
      (reset_submit demoToken "pw1" "pw1" 100 demoDB).db) = true := by
  decide

/-- C4 amended: a reset token older than 1 hour (or with a broken
signature) is rejected by POST /reset with no state change; a token
younger than 1 hour whose email matches an active user is accepted with
any valid new password — and it stays redeemable afterwards: a second
redemption of the same still-unexpired token is accepted as well. -/
theorem C4_reset_token_window_and_reuse (tok : Token) (pw cf pw2 : String)
    (now now2 : Nat) (db : DB) :
    (¬(tok.validSig = true ∧ now - tok.issuedAt ≤ 60 * 60) →
      reset_submit tok pw cf now db = .errFlash db) ∧
    (tok.validSig = true ∧ now - tok.issuedAt ≤ 60 * 60 ∧ pw ≠ "" ∧ pw = cf ∧
      (∃ u ∈ db.users, u.email = tok.email ∧ u.isActive = true) →
      accepted (reset_submit tok pw cf now db) = true) ∧
    (tok.validSig = true ∧ now - tok.issuedAt ≤ 60 * 60 ∧ pw ≠ "" ∧ pw = cf ∧
      (∃ u ∈ db.users, u.email = tok.email ∧ u.isActive = true) ∧
      now2 - tok.issuedAt ≤ 60 * 60 ∧ pw2 ≠ "" →
      accepted (reset_submit tok pw2 pw2 now2
        (reset_submit tok pw cf now db).db) = true) := by
  refine ⟨?_, ?_, ?_⟩
  · intro h
    unfold reset_submit load_token
    rw [if_neg (by exact_mod_cast h)]
  · rintro ⟨hs, ha, hp, hc, hu⟩
    rw [reset_submit_ok tok pw cf now db hs ha hp hc hu]
    rfl
  · rintro ⟨hs, ha, hp, hc, hu, ha2, hp2⟩
    rw [reset_submit_ok tok pw cf now db hs ha hp hc hu]
    simp only [Outcome.db]
    rw [reset_submit_ok tok pw2 pw2 now2 _ hs ha2 hp2 rfl
      (reset_preserves_match tok pw db hu)]
    rfl

theorem C4_witness :
    (demoToken.validSig = true ∧ 100 - demoToken.issuedAt ≤ 60 * 60 ∧
      ("pw1" : String) ≠ "" ∧ ("pw1" : String) = "pw1" ∧
      (∃ u ∈ demoDB.users, u.email = demoToken.email ∧ u.isActive = true) ∧
      200 - demoToken.issuedAt ≤ 60 * 60 ∧ ("pw2" : String) ≠ "") ∧
    accepted (reset_submit demoToken "pw2" "pw2" 200
      (reset_submit demoToken "pw1" "pw1" 100 demoDB).db) = true :=
  ⟨by decide,
    (C4_reset_token_window_and_reuse demoToken "pw1" "pw1" "pw2" 100 200
      demoDB).2.2 (by decide)⟩

/-! ### The ledger invariant over traces -/

theorem applyTrace_stock (i : Nat) :
    ∀ (ops : List Op) (db : DB),
      (∀ op ∈ ops, op.isBump = false) →
      stockOf (applyTrace db ops) i = ops.foldl (replayStep i) (stockOf db i)
  | [], _, _ => rfl
  | op :: tl, db, hn => by
    have hop := hn op (List.mem_cons_self op tl)
    have htl := fun x hx => hn x (List.mem_cons_of_mem op hx)
    have step : applyTrace db (op :: tl) = applyTrace (applyOp db op) tl := rfl
    rw [step, applyTrace_stock i tl _ htl, List.foldl_cons]
    congr 1
    cases op with
    | tx j t q =>
      by_cases hj : j = i
      · subst hj
        rw [show applyOp db (Op.tx j t q) = (addTx j t q none "staff" db).db from rfl,
          stockOf_addTx_self]
        simp [replayStep]
      · rw [show applyOp db (Op.tx j t q) = (addTx j t q none "staff" db).db from rfl,
          stockOf_addTx_other j i t q none "staff" db (Ne.symm hj)]
        simp [replayStep, hj]
    | buy j q up =>
      by_cases hj : j = i
      · subst hj
        rw [show applyOp db (Op.buy j q up) = (purchase j none q up none none 0 db).db
            from rfl,
          stockOf_purchase_self]
        simp [replayStep]
      · rw [show applyOp db (Op.buy j q up) = (purchase j none q up none none 0 db).db
            from rfl,
          stockOf_purchase_other j i none q up none none 0 db (Ne.symm hj)]
        simp [replayStep, hj]
    | bumpOp j d => simp [Op.isBump] at hop

/-- C5 counterexample: from the empty database, a single POST /bump of
delta 1 on item 1 leaves `current_qty = 1` while the item's ledger
(its IN/OUT/ADJ transactions and purchases) is empty, so the replayed
ledger value is 0: /bump does not preserve the correspondence the claim
asserts for every quantity-affecting operation. -/
theorem C5_counterexample :
    stockOf (applyTrace emptyDB [Op.bumpOp 1 1]) 1 = 1 ∧
    ledgerReplay [Op.bumpOp 1 1] 1 = 0 := by
  decide

/-- C5 amended: for every reachable state built from POST /tx and
POST /purchase submissions alone (no /bump), each item's
`stock_levels.current_qty` equals the replay of its ledger effects —
signed IN/OUT deltas, absolute values set by ADJ, purchase quantities —
in submission order. POST /bump changes current_qty without writing any
ledger row, so it does not preserve this correspondence. -/
theorem C5_ledger_invariant_without_bump (ops : List Op) (i : Nat)
    (hn : ∀ op ∈ ops, op.isBump = false) :
    stockOf (applyTrace emptyDB ops) i = ledgerReplay ops i := by
  rw [applyTrace_stock i ops emptyDB hn, ledgerReplay]
  rfl

theorem C5_witness :
    (∀ op ∈ [Op.tx 1 "IN" 4, Op.buy 1 2 3, Op.tx 1 "ADJ" 10, Op.tx 1 "OUT" 1],
      op.isBump = false) ∧
    stockOf (applyTrace emptyDB
        [Op.tx 1 "IN" 4, Op.buy 1 2 3, Op.tx 1 "ADJ" 10, Op.tx 1 "OUT" 1]) 1 =
      ledgerReplay [Op.tx 1 "IN" 4, Op.buy 1 2 3, Op.tx 1 "ADJ" 10, Op.tx 1 "OUT" 1] 1 :=
  ⟨by decide, C5_ledger_invariant_without_bump _ 1 (by decide)⟩

/-- C6 counterexample: POST /bump with a non-numeric `delta` field.
`float(request.form["delta"])` runs before the handler's `try` block, so
the ValueError escapes the handler: no flash, no redirect — contradicting
the claim that such errors are caught inside every handler. -/
theorem C6_counterexample :
    (bumpForm (FormInt.num 1) FormNum.malformed emptyDB).isUnhandled = true := rfl

/-- C6 amended: errors raised by the SQL statements inside the `try`
blocks (e.g. the CHECK constraint on the transaction type) are caught,
rolled back, flashed and redirected, and once form parsing has
succeeded no exception escapes /bump, /tx, /purchase or /items; but a
malformed (or missing) numeric form field is parsed before the `try`
block in each of these handlers, so it raises an exception that escapes
the handler body. -/
theorem C6_sql_errors_caught_parse_errors_escape :
    (∀ i t q note user faults db,
      (addTxRun i t q note user faults db).isUnhandled = false) ∧
    (∀ i sid q up dt note now faults db,
      (purchaseRun i sid q up dt note now faults db).isUnhandled = false) ∧
    (∀ i d db, (bumpCore i d db).isUnhandled = false) ∧
    (∀ name unit m sid db, (addItemCore name unit m sid db).isUnhandled = false) ∧
    (∀ i t q note user db, ¬(t = "IN" ∨ t = "OUT" ∨ t = "ADJ") →
      addTx i t q note user db = .errFlash db) ∧
    (∀ fi db, bumpForm fi FormNum.malformed db = .unhandled db) ∧
    (∀ fi ft note user db, addTxForm fi ft FormNum.malformed note user db = .unhandled db) ∧
    (∀ fi fq sid dt note now db,
      purchaseForm fi fq FormNum.malformed sid dt note now db = .unhandled db) ∧
    (∀ fn fu sid db, addItemForm fn fu FormNum.malformed sid db = .unhandled db) := by
  refine ⟨?_, ?_, ?_, ?_, ?_, ?_, ?_, ?_, ?_⟩
  · intro i t q note user faults db
    unfold addTxRun
    split
    · rfl
    · split
      · rfl
      · split <;> rfl
  · intro i sid q up dt note now faults db
    unfold purchaseRun
    split
    · rfl
    · split <;> rfl
  · intro i d db
    rfl
  · intro name unit m sid db
    unfold addItemCore
    dsimp only
    split
    · rfl
    · split <;> rfl
  · intro i t q note user db hv
    exact addTx_eq_of_invalid i t q note user db hv
  · intro fi db
    cases fi <;> rfl
  · intro fi ft note user db
    cases fi <;> cases ft <;> rfl
  · intro fi fq sid dt note now db
    cases fi <;> cases fq <;> rfl
  · intro fn fu sid db
    rfl

theorem C6_witness :
    ¬(("BAD" : String) = "IN" ∨ ("BAD" : String) = "OUT" ∨ ("BAD" : String) = "ADJ") ∧
    addTx 1 "BAD" 2 none "u" emptyDB = .errFlash emptyDB :=
  ⟨by decide,
    C6_sql_errors_caught_parse_errors_escape.2.2.2.2.1 1 "BAD" 2 none "u" emptyDB
      (by decide)⟩

/-- C7: when a user with the given email already exists, POST /register
is rejected (the handler sees a non-empty users table, flashes an error
and redirects to login) and the users table is unchanged, so it gains no
second row with that email. -/
theorem C7_duplicate_email_rejected (n e p : String) (db : DB) (u : UserRow)
    (hu : u ∈ db.users) (_he : u.email = lowerStr (stripStr e)) :
    register_post n e p db = .errFlash db ∧
    (register_post n e p db).db.users = db.users := by
  have hne : db.users.length > 0 := List.length_pos.mpr (List.ne_nil_of_mem hu)
  unfold register_post
  rw [if_pos hne]
  exact ⟨rfl, rfl⟩

theorem C7_witness :
    demoUser ∈ demoDB.users ∧
    demoUser.email = lowerStr (stripStr "a@example.com") ∧
    register_post "Bob" "a@example.com" "pw" demoDB = .errFlash demoDB ∧
    (register_post "Bob" "a@example.com" "pw" demoDB).db.users = demoDB.users :=
  ⟨by decide, by decide,
    C7_duplicate_email_rejected "Bob" "a@example.com" "pw" demoDB demoUser
      (by decide) (by decide)⟩

/-- C10: POST /register inserts a user only when the users table is
empty — with any existing user it flashes and redirects to login
without inserting — and every user it does create has role 'owner'. -/
theorem C10_register_first_user_owner_only (n e p : String) (db : DB) :
    (db.users ≠ [] → register_post n e p db = .errFlash db) ∧
    (∀ u ∈ (register_post n e p db).db.users, u ∈ db.users ∨ u.role = "owner") := by
  constructor
  · intro h
    unfold register_post
    rw [if_pos (List.length_pos.mpr h)]
  · intro u hu
    unfold register_post at hu
    by_cases h : db.users.length > 0
    · rw [if_pos h] at hu
      exact .inl hu
    · rw [if_neg h] at hu
      dsimp only at hu
      split at hu
      · exact .inl hu
      · simp only [Outcome.db, List.mem_append, List.mem_singleton] at hu
        rcases hu with h1 | h1
        · exact .inl h1
        · subst h1
          exact .inr rfl

theorem C10_witness :
    demoDB.users ≠ [] ∧
    register_post "Bob" "b@example.com" "pw" demoDB = .errFlash demoDB :=
  ⟨by decide,
    (C10_register_first_user_owner_only "Bob" "b@example.com" "pw" demoDB).1
      (by decide)⟩

/-- C8: the redemption windows are fixed constants — `max_age=60*60`
for GET/POST /reset, `max_age=60*60*24` for GET /verify-email — and a
token within its window stays redeemable: issuing a newer token via
POST /forgot writes nothing to the database, so it changes the outcome
of redeeming the older token in no way (there is no revocation). -/
theorem C8_fixed_windows_no_revocation (tok : Token) (pw cf email2 : String)
    (now now2 issueNow : Nat) (db : DB) :
    (reset_form tok now = true ↔
      tok.validSig = true ∧ now - tok.issuedAt ≤ 60 * 60) ∧
    (¬(tok.validSig = true ∧ now - tok.issuedAt ≤ 60 * 60) →
      reset_submit tok pw cf now db = .errFlash db) ∧
    (¬(tok.validSig = true ∧ now - tok.issuedAt ≤ 60 * 60 * 24) →
      verify_email tok now db = .errFlash db) ∧
    (tok.validSig = true → now - tok.issuedAt ≤ 60 * 60 * 24 →
      (∃ u ∈ db.users, u.email = tok.email) →
      accepted (verify_email tok now db) = true) ∧
    ((forgot_post email2 issueNow db).2 = db) ∧
    (reset_submit tok pw cf now2 (forgot_post email2 issueNow db).2 =
      reset_submit tok pw cf now2 db) ∧
    (verify_email tok now2 (forgot_post email2 issueNow db).2 =
      verify_email tok now2 db) := by
  have hforgot : (forgot_post email2 issueNow db).2 = db := by
    unfold forgot_post
    dsimp only
    cases List.find? (fun u => u.email == lowerStr (stripStr email2) && u.isActive) db.users <;> rfl
  refine ⟨?_, ?_, ?_, ?_, hforgot, by rw [hforgot], by rw [hforgot]⟩
  · unfold reset_form load_token
    by_cases h : tok.validSig = true ∧ now - tok.issuedAt ≤ 60 * 60
    · rw [if_pos (by exact_mod_cast h)]
      simp [h]
    · rw [if_neg (by exact_mod_cast h)]
      simp only [Option.isSome_none, Bool.false_eq_true, false_iff]
      exact h
  · intro h
    unfold reset_submit load_token
    rw [if_neg (by exact_mod_cast h)]
  · intro h
    unfold verify_email load_token
    rw [if_neg (by exact_mod_cast h)]
  · intro hs ha hu
    unfold verify_email load_token
    rw [if_pos ⟨hs, ha⟩]
    dsimp only
    obtain ⟨u, hmem, he⟩ := hu
    have hfind : (db.users.find? (fun u => u.email == tok.email)).isSome := by
      rw [List.find?_isSome]
      exact ⟨u, hmem, by simp [he]⟩
    obtain ⟨v, hv⟩ := Option.isSome_iff_exists.mp hfind
    rw [hv]
    rfl

theorem C8_witness :
    (¬(demoToken.validSig = true ∧ 4000 - demoToken.issuedAt ≤ 60 * 60) ∧
      reset_submit demoToken "x" "x" 4000 demoDB = .errFlash demoDB) ∧
    (demoToken.validSig = true ∧ 4000 - demoToken.issuedAt ≤ 60 * 60 * 24 ∧
      (∃ u ∈ demoDB.users, u.email = demoToken.email) ∧
      accepted (verify_email demoToken 4000 demoDB) = true) ∧
    reset_submit demoToken "x" "x" 200 (forgot_post "b@x" 150 demoDB).2 =
      reset_submit demoToken "x" "x" 200 demoDB :=
  ⟨⟨by decide,
      (C8_fixed_windows_no_revocation demoToken "x" "x" "b@x" 4000 200 150
        demoDB).2.1 (by decide)⟩,
    ⟨by decide, by decide, ⟨demoUser, by decide, by decide⟩,
      (C8_fixed_windows_no_revocation demoToken "x" "x" "b@x" 4000 200 150
        demoDB).2.2.2.1 (by decide) (by decide) ⟨demoUser, by decide, by decide⟩⟩,
    (C8_fixed_windows_no_revocation demoToken "x" "x" "b@x" 4000 200 150
      demoDB).2.2.2.2.2.1⟩

/-- C9: POST /tx and POST /purchase are all-or-nothing at the request
level. With an arbitrary fault oracle making any of the handler's SQL
statements raise, the outcome is either the untouched pre-request state
with an error flash (the `except` branch rolled the session back before
anything was committed) or the fully committed effect — ledger row and
stock_levels change together; and whenever the first statement faults,
the state is exactly the original. -/
theorem C9_request_atomicity (i : Nat) (t : String) (q : Rat)
    (note : Option String) (user : String) (sid : Option Nat) (up : Rat)
    (dt : Option Nat) (pn : Option String) (now : Nat) (faults : List Bool)
    (db : DB) :
    (addTxRun i t q note user faults db = .errFlash db ∨
      addTxRun i t q note user faults db = .ok (txCommit i t q note user db)) ∧
    (faults.getD 0 false = true →
      addTxRun i t q note user faults db = .errFlash db) ∧
    (purchaseRun i sid q up dt pn now faults db = .errFlash db ∨
      purchaseRun i sid q up dt pn now faults db =
        .ok (purchaseCommit i sid q up dt pn now db)) ∧
    (faults.getD 0 false = true →
      purchaseRun i sid q up dt pn now faults db = .errFlash db) := by
  refine ⟨?_, ?_, ?_, ?_⟩
  · unfold addTxRun
    split
    · exact .inl rfl
    · split
      · exact .inl rfl
      · split
        · exact .inl rfl
        · exact .inr rfl
  · intro h
    unfold addTxRun
    rw [if_pos (.inl (by exact_mod_cast h))]
  · unfold purchaseRun
    split
    · exact .inl rfl
    · split
      · exact .inl rfl
      · exact .inr rfl
  · intro h
    unfold purchaseRun
    rw [if_pos (by exact_mod_cast h)]

theorem C9_witness :
    ([true].getD 0 false = true ∧
      addTxRun 1 "IN" 2 none "u" [true] emptyDB = .errFlash emptyDB ∧
      purchaseRun 1 none 2 3 none none 0 [true] emptyDB = .errFlash emptyDB) ∧
    (addTxRun 1 "IN" 2 none "u" [] emptyDB =
        .ok (txCommit 1 "IN" 2 none "u" emptyDB) ∨
      addTxRun 1 "IN" 2 none "u" [] emptyDB = .errFlash emptyDB) :=
  ⟨⟨by decide,
      (C9_request_atomicity 1 "IN" 2 none "u" none 3 none none 0 [true]
        emptyDB).2.1 (by decide),
      (C9_request_atomicity 1 "IN" 2 none "u" none 3 none none 0 [true]
        emptyDB).2.2.2 (by decide)⟩,
    ((C9_request_atomicity 1 "IN" 2 none "u" none 3 none none 0 []
        emptyDB).1).symm⟩

end Inventory
